import Mathlib

/-!
Verification development for the synchronization core of the md-to-pdf
collaborative editor: the Loro-backed document store (`LoroStore`,
src/lib/stores/loro.svelte.ts), the reconciliation bridge in the files
store (`setupLoroSync`, `refresh`, `syncAllToLoro` in
src/lib/stores/files.svelte.ts) and the OPFS persistent-store interface
(src/lib/utils/opfs.ts).  Every definition is a shallow embedding of the
corresponding TypeScript function; external library behaviour (the
loro-crdt import/export contract, the PeerJS broker) is modelled at the
contract level, as documented on each definition.
-/

deriving instance DecidableEq for Except

namespace MdToPdf

/-- An operation identifier in the CRDT op-log: a (peer, counter) pair,
the unit of the version-vector bookkeeping loro-crdt uses to decide
whether an incoming operation is already known. -/
structure OpId where
  peer : Nat
  counter : Nat
deriving DecidableEq, Repr

/-- The mutations the store issues against the Loro document: positional
text deletion and insertion on a root text container (used by
`setFile`), and key deletion on a map container (used by `deleteFile`
against the root map named "files"). -/
inductive OpAction where
  | textDelete (container : String) (pos len : Nat)
  | textInsert (container : String) (pos : Nat) (s : String)
  | mapDelete (container : String) (key : String)
deriving DecidableEq, Repr

/-- An op-log entry: an identified operation. -/
structure Op where
  id : OpId
  action : OpAction
deriving DecidableEq, Repr

/-- A root container of the Loro document: either a text sequence
(one per file path) or a map (the store creates the map "files" in its
constructor). -/
inductive Container where
  | text (s : String)
  | mapC (keys : List String)
deriving DecidableEq, Repr

/-- First-match association-list lookup over the container table. -/
def aLookup : List (String × Container) → String → Option Container
  | [], _ => none
  | (k, c) :: rest, key => if k = key then some c else aLookup rest key

/-- Replace the first binding of `key` (the table keeps one binding per
key in every reachable state). -/
def aSet : List (String × Container) → String → Container → List (String × Container)
  | [], _, _ => []
  | (k, c) :: rest, key, v =>
      if k = key then (k, v) :: rest else (k, c) :: aSet rest key v

/-- Delete the range `[pos, pos+len)` of code points from a string
(the effect of `LoroText.delete(pos, len)`). -/
def strDeleteRange (s : String) (pos len : Nat) : String :=
  (s.data.take pos ++ s.data.drop (pos + len)).asString

/-- Insert `t` at position `pos` (the effect of
`LoroText.insert(pos, t)`). -/
def strInsertAt (s : String) (pos : Nat) (t : String) : String :=
  (s.data.take pos ++ t.data ++ s.data.drop pos).asString

/-- Apply one operation's action to the container table.  A text
operation on a missing container creates it (root containers are
implicit in loro); an operation addressed at a container of the wrong
kind leaves the table unchanged (unreachable for operations loro
actually produces). -/
def applyAction (cs : List (String × Container)) : OpAction → List (String × Container)
  | .textDelete k pos len =>
      match aLookup cs k with
      | some (.text s) => aSet cs k (.text (strDeleteRange s pos len))
      | some (.mapC _) => cs
      | none => cs ++ [(k, .text (strDeleteRange "" pos len))]
  | .textInsert k pos t =>
      match aLookup cs k with
      | some (.text s) => aSet cs k (.text (strInsertAt s pos t))
      | some (.mapC _) => cs
      | none => cs ++ [(k, .text (strInsertAt "" pos t))]
  | .mapDelete k key =>
      match aLookup cs k with
      | some (.mapC keys) => aSet cs k (.mapC (keys.erase key))
      | _ => cs

/-- The replicated document (`LoroDoc`): its container table, its op-log
in application order, and the local peer's id and next op counter for
minting fresh operation ids. -/
structure LoroDoc where
  containers : List (String × Container)
  oplog : List Op
  selfPeer : Nat
  nextCounter : Nat
deriving DecidableEq, Repr

/-- A fresh document as built in the `LoroStore` constructor, which
immediately creates the root map "files" via `doc.getMap` before any
operation is issued. -/
def LoroDoc.init (peer : Nat) : LoroDoc :=
  { containers := [("files", .mapC [])], oplog := [], selfPeer := peer, nextCounter := 0 }

/-- The set of operation ids this replica has applied: the model of the
version vector returned by `doc.oplogVersion()`. -/
def LoroDoc.appliedIds (d : LoroDoc) : List OpId :=
  d.oplog.map (fun o => o.id)

/-- Apply an operation and record it in the op-log. -/
def LoroDoc.applyAppend (d : LoroDoc) (o : Op) : LoroDoc :=
  { d with containers := applyAction d.containers o.action, oplog := d.oplog ++ [o] }

/-- Modelled from the spec: the loro-crdt merge contract for
`doc.import` (the library itself is not part of this repository).  The
spec states that merging takes the causal union of op-logs and that
"replaying already-known operations is a no-op": each incoming
operation is applied exactly when its id is not already in the
replica's version vector. -/
def LoroDoc.importOps (d : LoroDoc) (ops : List Op) : LoroDoc :=
  ops.foldl (fun d o => if o.id ∈ d.appliedIds then d else d.applyAppend o) d

/-- A wire payload as decoded by `doc.import`: either a well-formed
serialized op list or malformed bytes, on which `import` throws. -/
inductive Payload where
  | ok (ops : List Op)
  | bad
deriving DecidableEq, Repr

/-- Modelled from the spec: `doc.import` on raw bytes — decodes and
merges, throwing (modelled as `Except.error`) on corrupt input. -/
def LoroDoc.importBytes (d : LoroDoc) : Payload → Except Unit LoroDoc
  | .ok ops => .ok (d.importOps ops)
  | .bad => .error ()

/-- Export of the incremental update since a previous version marker
(`doc.export` with mode "update" and a `from` frontier): the ops whose
ids the marker does not contain; with no marker, the whole log. -/
def LoroDoc.exportFrom (d : LoroDoc) : Option (List OpId) → List Op
  | none => d.oplog
  | some v => d.oplog.filter (fun o => decide (o.id ∉ v))

/-- Mint a local operation with a fresh (selfPeer, nextCounter) id,
apply it and advance the counter. -/
def LoroDoc.localOp (d : LoroDoc) (a : OpAction) : LoroDoc :=
  let o : Op := { id := { peer := d.selfPeer, counter := d.nextCounter }, action := a }
  { d.applyAppend o with nextCounter := d.nextCounter + 1 }

/-- The effect of `doc.getText(path)`: returns the container's current
string, lazily creating an empty root text container when the path is
unbound, and throwing when the path is bound to a container of a
different kind (such as the root map "files"). -/
def LoroDoc.getText (d : LoroDoc) (k : String) : Except Unit (String × LoroDoc) :=
  match aLookup d.containers k with
  | some (.text s) => .ok (s, d)
  | some (.mapC _) => .error ()
  | none => .ok ("", { d with containers := d.containers ++ [(k, .text "")] })

/-- A wire message as in `LoroStore`: { type, data }.  Snapshot ("sync")
and update payloads carry serialized CRDT data; ephemeral payloads are
opaque presence bytes, irrelevant to the document claims. -/
inductive Msg where
  | sync (p : Payload)
  | update (p : Payload)
  | ephemeral (bytes : Nat)
deriving DecidableEq, Repr

/-- One `conn.send` call: the receiving peer id and the message. -/
abbrev Send := String × Msg

/-- The synchronization store (`LoroStore`): the document, the manually
tracked file-path registry (`filePaths`, a set), the reentrancy flag
`applyingRemote`, the last exported version marker `lastFrontiers`, the
session role and connection bookkeeping.  `connections` holds the ids
of the currently open data connections; `connectAttempts` records every
target handed to `peer.connect` (the outbound connections opened by
`connectToPeer`). -/
structure LoroStore where
  doc : LoroDoc
  filePaths : List String
  applyingRemote : Bool
  lastFrontiers : Option (List OpId)
  isHost : Bool
  roomId : Option String
  peerId : Option String
  connections : List String
  connectAttempts : List String
deriving DecidableEq, Repr

/-- A freshly constructed `LoroStore` (constructor of the class). -/
def LoroStore.init (peer : Nat) : LoroStore :=
  { doc := .init peer, filePaths := [], applyingRemote := false,
    lastFrontiers := none, isHost := false, roomId := none,
    peerId := none, connections := [], connectAttempts := [] }

/-- `broadcast(msg, excludeId?)`: send `msg` on every open connection
except the excluded one. -/
def LoroStore.broadcastMsg (st : LoroStore) (msg : Msg) (exclude : Option String) : List Send :=
  (st.connections.filter (fun c => decide (some c ≠ exclude))).map (fun c => (c, msg))

/-- The `doc.subscribe` handler installed by `setupBehaviors`, fired on
a document commit: while `applyingRemote` is set it returns at once
(only notifying the app); otherwise it exports the delta since
`lastFrontiers`, advances the marker, and broadcasts a non-empty delta
as an `update` message. -/
def LoroStore.docEmit (st : LoroStore) : LoroStore × List Send :=
  if st.applyingRemote then (st, [])
  else
    let currentFrontiers := st.doc.appliedIds
    let updates := st.doc.exportFrom st.lastFrontiers
    let st1 := { st with lastFrontiers := some currentFrontiers }
    if updates.isEmpty then (st1, [])
    else (st1, st1.broadcastMsg (Msg.update (.ok updates)) none)

/-- `listFiles()`: the tracked path registry. -/
def LoroStore.listFiles (st : LoroStore) : List String :=
  st.filePaths

/-- Set insertion into the path registry (`SvelteSet.add`). -/
def insertPath (l : List String) (p : String) : List String :=
  if p ∈ l then l else l ++ [p]

/-- `getFile(path)`: `doc.getText(path).toString()` inside a try/catch
returning null (here `none`) when `getText` throws.  `getText` may
lazily create a container, so the (possibly extended) document is
returned alongside. -/
def LoroStore.getFile (st : LoroStore) (path : String) : Option String × LoroStore :=
  match st.doc.getText path with
  | .ok (s, d) => (some s, { st with doc := d })
  | .error _ => (none, st)

/-- `setFile(path, content)`: get (or create) the text container,
register the path, and when the current content differs, replace it by
a whole-range delete followed by an insert (loro records no operation
for a zero-length delete or an empty insert).  The commit of a
non-empty change fires the `doc.subscribe` handler.  An exception from
`getText` (wrong container kind at `path`) propagates to the caller. -/
def LoroStore.setFile (st : LoroStore) (path content : String) : Except Unit (LoroStore × List Send) :=
  match st.doc.getText path with
  | .error e => .error e
  | .ok (currentContent, d) =>
    let st1 := { st with doc := d, filePaths := insertPath st.filePaths path }
    if currentContent = content then .ok (st1, [])
    else
      let d1 := if currentContent.length > 0
        then st1.doc.localOp (.textDelete path 0 currentContent.length) else st1.doc
      let d2 := if content = "" then d1 else d1.localOp (.textInsert path 0 content)
      .ok (LoroStore.docEmit { st1 with doc := d2 })

/-- `deleteFile(path)`: delete the key from the root map "files" (a
`LoroMap.delete`, which records an operation only when the key is
present) and drop the path from the registry.  A recorded operation
commits and fires the `doc.subscribe` handler. -/
def LoroStore.deleteFile (st : LoroStore) (path : String) : LoroStore × List Send :=
  match aLookup st.doc.containers "files" with
  | some (.mapC keys) =>
    if path ∈ keys then
      LoroStore.docEmit { st with doc := st.doc.localOp (.mapDelete "files" path), filePaths := st.filePaths.erase path }
    else ({ st with filePaths := st.filePaths.erase path }, [])
  | _ => ({ st with filePaths := st.filePaths.erase path }, [])

/-- Result of one `handleMessage` call: the state after the call, the
messages sent during it, and whether the remote-change callback is
invoked. -/
structure HMOut where
  store : LoroStore
  sends : List Send
  remoteNotify : Bool
deriving DecidableEq, Repr

/-- `handleMessage(msg, senderId)`: inside a try/catch, a sync or
update payload is imported under the `applyingRemote` flag (a commit
during the import fires the `doc.subscribe` handler with the flag still
set); on success the version marker is advanced, the flag cleared, the
message relayed by the host to every other connection, and the
remote-change callback notified.  A throwing import is caught after the
flag was set but before it is cleared. -/
def LoroStore.handleMessage (st : LoroStore) (msg : Msg) (sender : String) : HMOut :=
  match msg with
  | .sync p | .update p =>
    let st1 := { st with applyingRemote := true }
    match st1.doc.importBytes p with
    | .error _ => { store := st1, sends := [], remoteNotify := false }
    | .ok d =>
      let emitted := LoroStore.docEmit { st1 with doc := d }
      let st3 := { emitted.1 with lastFrontiers := some d.appliedIds, applyingRemote := false }
      let relaySends := if st3.isHost then st3.broadcastMsg msg (some sender) else []
      { store := st3, sends := emitted.2 ++ relaySends, remoteNotify := true }
  | .ephemeral _ =>
    let sends := if st.isHost then st.broadcastMsg msg (some sender) else []
    { store := st, sends := sends, remoteNotify := false }

/-- `connectToPeer(hostId)`: open an outbound connection to the host
address (the `conn` handlers are installed by `handleConnection`; the
connection joins `connections` only when its own open event fires). -/
def LoroStore.connectToPeer (st : LoroStore) (hostId : String) : LoroStore :=
  { st with connectAttempts := st.connectAttempts ++ [hostId] }

/-- The `peer.on('open')` handler installed by `setupPeerEvents`: a
host records the assigned id as the room id; a client with a target
room connects to it. -/
def LoroStore.peerOpen (st : LoroStore) (id : String) (connectToRoomId : Option String) : LoroStore :=
  if st.isHost then { st with roomId := some id }
  else
    match connectToRoomId with
    | some target => st.connectToPeer target
    | none => st

/-- How the PeerJS broker answers a claim attempt for an explicit room
id: the claim opens, fails with the error kind "unavailable-id", or
fails with some other error. -/
inductive ClaimOutcome where
  | opened
  | unavailableId
  | otherError
deriving DecidableEq, Repr

/-- `joinRoom(roomId)`: after cleanup, with no room id the peer is host
on a fresh broker-assigned address; with a room id it claims it, and on
the broker's answer either becomes host of that id, or — exactly on the
"unavailable-id" error — destroys the claiming peer, falls back to
client mode on a fresh broker-assigned address and, when that address
opens, connects to the room id as the host's address.  Any other claim
error is only logged.  `brokerId` is the fresh address the broker
assigns to an unclaimed peer. -/
def LoroStore.joinRoom (st : LoroStore) (roomId : Option String) (outcome : ClaimOutcome)
    (brokerId : String) : LoroStore :=
  let st0 := { st with connections := [] }
  match roomId with
  | none =>
    LoroStore.peerOpen { st0 with isHost := true, peerId := some brokerId } brokerId none
  | some rid =>
    match outcome with
    | .opened =>
      { st0 with isHost := true, peerId := some rid, roomId := some rid }
    | .unavailableId =>
      LoroStore.peerOpen { st0 with isHost := false, peerId := some brokerId } brokerId (some rid)
    | .otherError => st0

mutual
/-- A node of the OPFS directory tree as returned by
`opfs.listDirectory`; the model carries each file's content inline. -/
inductive FileNode where
  | file (path : String) (content : String)
  | folder (path : String) (children : FileTree)
/-- The tree: a list of nodes, mutually defined with `FileNode` so
that the tree walks below are structural recursions. -/
inductive FileTree where
  | nil
  | cons (head : FileNode) (tail : FileTree)
end

/-- Number of top-level entries of a tree (the `length` of the node
array `listDirectory` returns). -/
def FileTree.length : FileTree → Nat
  | .nil => 0
  | .cons _ rest => rest.length + 1

mutual
/-- Content of the file at `path` when `path` sits in this node. -/
def findFileNode : FileNode → String → Option String
  | .file p c, path => if p = path then some c else none
  | .folder _ children, path => findFileTree children path
/-- Find a file's content anywhere in the tree. -/
def findFileTree : FileTree → String → Option String
  | .nil, _ => none
  | .cons n rest, path =>
      match findFileNode n path with
      | some c => some c
      | none => findFileTree rest path
end

mutual
/-- Overwrite the content of the file at `path` inside one node. -/
def updateFileNode : FileNode → String → String → FileNode
  | .file p c, path, content => if p = path then .file p content else .file p c
  | .folder fp children, path, content => .folder fp (updateFileTree children path content)
/-- Overwrite the content of the file at `path` wherever it sits. -/
def updateFileTree : FileTree → String → String → FileTree
  | .nil, _, _ => .nil
  | .cons n rest, path, content =>
      .cons (updateFileNode n path content) (updateFileTree rest path content)
end

mutual
/-- The paths of the file nodes inside one node. -/
def nodeFilePaths : FileNode → List String
  | .file p _ => [p]
  | .folder _ children => treeFilePaths children
/-- The collected paths of the file nodes of a tree. -/
def treeFilePaths : FileTree → List String
  | .nil => []
  | .cons n rest => nodeFilePaths n ++ treeFilePaths rest
end

/-- The persistent store (OPFS) with fault oracles: `writeFails` are
the paths whose `writeFile` throws, `readFails` those whose `readFile`
throws even though the file exists. -/
structure Opfs where
  tree : FileTree
  writeFails : List String
  readFails : List String

/-- `opfs.readFile(path)`: the file's text, throwing when the file is
absent or the read fails. -/
def Opfs.readFile (o : Opfs) (path : String) : Except Unit String :=
  if path ∈ o.readFails then .error ()
  else
    match findFileTree o.tree path with
    | some c => .ok c
    | none => .error ()

/-- Append a node at the end of the top level of a tree. -/
def FileTree.push : FileTree → FileNode → FileTree
  | .nil, n => .cons n .nil
  | .cons h t, n => .cons h (t.push n)

/-- `opfs.writeFile(path, content)`: create-or-overwrite (the handle is
fetched with create set), throwing on an I/O failure. -/
def Opfs.writeFile (o : Opfs) (path content : String) : Except Unit Opfs :=
  if path ∈ o.writeFails then .error ()
  else if (findFileTree o.tree path).isSome then
    .ok { o with tree := updateFileTree o.tree path content }
  else
    .ok { o with tree := o.tree.push (.file path content) }

/-- `opfs.listDirectory()`: the directory tree. -/
def Opfs.listDirectory (o : Opfs) : FileTree :=
  o.tree

/-- The open editor buffer (`currentFile` of the files store). -/
structure EditorFile where
  path : String
  content : String
  isDirty : Bool
  isNew : Bool
deriving DecidableEq, Repr

/-- The reconciliation-bridge side of the files store: the cached tree,
the open buffer, the last saved content and the bridge's own
reentrancy flag `isApplyingRemote`. -/
structure FilesStore where
  files : FileTree
  currentFile : Option EditorFile
  lastSavedContent : String
  isApplyingRemote : Bool

/-- Result of `syncAllToLoro`, which in the source lets exceptions
escape mid-loop: the Loro state and sends accumulated so far, and
whether the walk completed without throwing. -/
structure SyncOut where
  loro : LoroStore
  sends : List Send
  ok : Bool
deriving DecidableEq, Repr

mutual
/-- One node of the `syncAllToLoro` walk: for a file node read its
content from OPFS and `setFile` it into Loro; recurse into a folder.
A throwing read or `setFile` aborts with the mutations made so far. -/
def syncNodeToLoro (o : Opfs) (loro : LoroStore) : FileNode → SyncOut
  | .file p _ =>
      match o.readFile p with
      | .error _ => { loro := loro, sends := [], ok := false }
      | .ok content =>
        match loro.setFile p content with
        | .error _ => { loro := loro, sends := [], ok := false }
        | .ok (loro1, s1) => { loro := loro1, sends := s1, ok := true }
  | .folder _ children => syncTreeToLoro o loro children
/-- The `syncAllToLoro(nodes)` loop over a node list. -/
def syncTreeToLoro (o : Opfs) (loro : LoroStore) : FileTree → SyncOut
  | .nil => { loro := loro, sends := [], ok := true }
  | .cons n rest =>
      let r1 := syncNodeToLoro o loro n
      if r1.ok then
        let r2 := syncTreeToLoro o r1.loro rest
        { loro := r2.loro, sends := r1.sends ++ r2.sends, ok := r2.ok }
      else r1
end

/-- `syncAllToLoro(nodes)`: walk the tree, pushing every file found
into the Loro store. -/
def syncAllToLoro (o : Opfs) (loro : LoroStore) (nodes : FileTree) : SyncOut :=
  syncTreeToLoro o loro nodes

/-- Result of `refresh` and of the host callback. -/
structure BridgeOut where
  fs : FilesStore
  loro : LoroStore
  sends : List Send
  ok : Bool

/-- `refresh()`: re-list the directory into `files` and, exactly when
this peer is host, the Loro registry is empty and the local list is
non-empty, bulk-push the local files into Loro; its catch resets
`files` to the empty list and swallows the error. -/
def refresh (fs : FilesStore) (o : Opfs) (loro : LoroStore) : BridgeOut :=
  let newFiles := o.listDirectory
  let fs1 := { fs with files := newFiles }
  if loro.isHost = true ∧ loro.listFiles.length = 0 ∧ newFiles.length > 0 then
    let r := syncAllToLoro o loro newFiles
    if r.ok then { fs := fs1, loro := r.loro, sends := r.sends, ok := true }
    else { fs := { fs1 with files := .nil }, loro := r.loro, sends := r.sends, ok := true }
  else
    { fs := fs1, loro := loro, sends := [], ok := true }

/-- The `setHostCallback` handler of `setupLoroSync`: when the store
becomes host, re-list the directory and, whenever the top-level list is
non-empty, bulk-push every local file into Loro — with no check of the
shared document's contents.  A throw inside the push escapes the async
callback, keeping the mutations made so far. -/
def hostCallback (fs : FilesStore) (o : Opfs) (loro : LoroStore) : BridgeOut :=
  let newFiles := o.listDirectory
  let fs1 := { fs with files := newFiles }
  if newFiles.length > 0 then
    let r := syncAllToLoro o loro newFiles
    { fs := fs1, loro := r.loro, sends := r.sends, ok := r.ok }
  else
    { fs := fs1, loro := loro, sends := [], ok := true }

/-- State of the write loop of the remote-change callback: the threaded
stores, the paths written to OPFS so far, and whether the loop ran to
completion (false exactly when a store write threw). -/
structure PassLoopOut where
  loro : LoroStore
  opfs : Opfs
  fs : FilesStore
  written : List String
  ok : Bool

/-- The body of the remote-change callback's for-loop over the paths
known to Loro: read each path from Loro (a null read is skipped), write
the content to OPFS, and when the path is the open buffer with
different content, update the buffer and the last-saved marker.  A
throwing OPFS write aborts the remaining iterations (the single
try/catch wraps the whole loop). -/
def passLoop (loro : LoroStore) (o : Opfs) (fs : FilesStore) : List String → PassLoopOut
  | [] => { loro := loro, opfs := o, fs := fs, written := [], ok := true }
  | p :: rest =>
    let g := loro.getFile p
    match g.1 with
    | none => passLoop g.2 o fs rest
    | some content =>
      match o.writeFile p content with
      | .error _ => { loro := g.2, opfs := o, fs := fs, written := [], ok := false }
      | .ok o1 =>
        let fs1 :=
          match fs.currentFile with
          | some ef =>
            if ef.path = p ∧ ef.content ≠ content then
              { fs with currentFile := some ({ ef with content := content }), lastSavedContent := content }
            else fs
          | none => fs
        let r := passLoop g.2 o1 fs1 rest
        { r with written := p :: r.written }

/-- Result of one whole inbound reconciliation pass. -/
structure PassOut where
  loro : LoroStore
  opfs : Opfs
  fs : FilesStore
  sends : List Send
  written : List String

/-- The remote-change callback registered by `setupLoroSync`: set the
bridge's reentrancy flag, run the write loop over `listFiles()`, then
`refresh()`; the catch swallows a loop abort (skipping the refresh) and
the finally clears the flag. -/
def remoteChangePass (fs : FilesStore) (loro : LoroStore) (o : Opfs) : PassOut :=
  let fs0 := { fs with isApplyingRemote := true }
  let r := passLoop loro o fs0 loro.listFiles
  if r.ok then
    let rr := refresh r.fs r.opfs r.loro
    { loro := rr.loro, opfs := r.opfs, fs := { rr.fs with isApplyingRemote := false },
      sends := rr.sends, written := r.written }
  else
    { loro := r.loro, opfs := r.opfs, fs := { r.fs with isApplyingRemote := false },
      sends := [], written := r.written }

section Lemmas

/-- The subscription handler never touches the document itself. -/
theorem docEmit_fst_doc (st : LoroStore) : st.docEmit.1.doc = st.doc := by
  unfold LoroStore.docEmit
  split
  · rfl
  · dsimp only
    split <;> rfl

/-- The subscription handler never touches the path registry. -/
theorem docEmit_fst_filePaths (st : LoroStore) : st.docEmit.1.filePaths = st.filePaths := by
  unfold LoroStore.docEmit
  split
  · rfl
  · dsimp only
    split <;> rfl

/-- The subscription handler never touches the reentrancy flag. -/
theorem docEmit_fst_applyingRemote (st : LoroStore) :
    st.docEmit.1.applyingRemote = st.applyingRemote := by
  unfold LoroStore.docEmit
  split
  · rfl
  · dsimp only
    split <;> rfl

/-- The subscription handler never touches the host flag. -/
theorem docEmit_fst_isHost (st : LoroStore) : st.docEmit.1.isHost = st.isHost := by
  unfold LoroStore.docEmit
  split
  · rfl
  · dsimp only
    split <;> rfl

/-- The subscription handler never touches the connection set. -/
theorem docEmit_fst_connections (st : LoroStore) :
    st.docEmit.1.connections = st.connections := by
  unfold LoroStore.docEmit
  split
  · rfl
  · dsimp only
    split <;> rfl

/-- While the reentrancy flag is set the subscription handler is a full
no-op: the state is untouched and nothing is sent. -/
theorem docEmit_of_applyingRemote (st : LoroStore) (h : st.applyingRemote = true) :
    st.docEmit = (st, []) := by
  unfold LoroStore.docEmit
  simp [h]

theorem aLookup_append (l1 l2 : List (String × Container)) (k : String) :
    aLookup (l1 ++ l2) k =
      match aLookup l1 k with
      | some c => some c
      | none => aLookup l2 k := by
  induction l1 with
  | nil => simp [aLookup]
  | cons hd tl ih =>
    obtain ⟨k1, c1⟩ := hd
    by_cases hk : k1 = k <;> simp [aLookup, hk, ih]

theorem aLookup_aSet_self (l : List (String × Container)) (k : String) (v : Container)
    (h : (aLookup l k).isSome) : aLookup (aSet l k v) k = some v := by
  induction l with
  | nil => simp [aLookup] at h
  | cons hd tl ih =>
    obtain ⟨k1, c1⟩ := hd
    by_cases hk : k1 = k
    · simp [aLookup, aSet, hk]
    · simp [aLookup, aSet, hk] at h ⊢
      exact ih h

theorem aLookup_aSet_other (l : List (String × Container)) (k k2 : String) (v : Container)
    (h : k2 ≠ k) : aLookup (aSet l k v) k2 = aLookup l k2 := by
  induction l with
  | nil => simp [aSet]
  | cons hd tl ih =>
    obtain ⟨k1, c1⟩ := hd
    by_cases hk : k1 = k
    · subst hk
      simp [aLookup, aSet, Ne.symm h]
    · simp [aLookup, aSet, hk, ih]

/-- `getText` only ever extends the container table: the op-log, peer
id and counter are untouched. -/
theorem getText_ok_inv (d : LoroDoc) (k : String) (s : String) (d2 : LoroDoc)
    (h : d.getText k = .ok (s, d2)) :
    d2.oplog = d.oplog ∧ d2.selfPeer = d.selfPeer ∧ d2.nextCounter = d.nextCounter := by
  unfold LoroDoc.getText at h
  cases hl : aLookup d.containers k with
  | none => rw [hl] at h; injection h with h2; injection h2 with h3 h4; rw [← h4]; exact ⟨rfl, rfl, rfl⟩
  | some c =>
    cases c with
    | text s0 => rw [hl] at h; injection h with h2; injection h2 with h3 h4; rw [← h4]; exact ⟨rfl, rfl, rfl⟩
    | mapC m => rw [hl] at h; cases h

/-- After a successful `getText`, the returned document binds `k` to a
text container holding the returned string. -/
theorem getText_ok_lookup (d : LoroDoc) (k : String) (s : String) (d2 : LoroDoc)
    (h : d.getText k = .ok (s, d2)) :
    aLookup d2.containers k = some (.text s) := by
  unfold LoroDoc.getText at h
  cases hl : aLookup d.containers k with
  | none =>
    rw [hl] at h
    injection h with h2
    injection h2 with h3 h4
    rw [← h4, ← h3]
    simp [aLookup_append, hl, aLookup]
  | some c =>
    cases c with
    | text s0 =>
      rw [hl] at h
      injection h with h2
      injection h2 with h3 h4
      rw [← h4, ← h3]
      exact hl
    | mapC m => rw [hl] at h; cases h

theorem appliedIds_applyAppend (d : LoroDoc) (o : Op) :
    (d.applyAppend o).appliedIds = d.appliedIds ++ [o.id] := by
  simp [LoroDoc.applyAppend, LoroDoc.appliedIds]

theorem importOps_cons (d : LoroDoc) (o : Op) (rest : List Op) :
    d.importOps (o :: rest) =
      (if o.id ∈ d.appliedIds then d else d.applyAppend o).importOps rest := rfl

/-- Importing never forgets an already-applied operation id. -/
theorem mem_appliedIds_importOps_of_mem (ops : List Op) :
    ∀ (d : LoroDoc) (x : OpId), x ∈ d.appliedIds → x ∈ (d.importOps ops).appliedIds := by
  induction ops with
  | nil => intro d x h; exact h
  | cons o rest ih =>
    intro d x h
    rw [importOps_cons]
    by_cases ho : o.id ∈ d.appliedIds
    · rw [if_pos ho]; exact ih d x h
    · rw [if_neg ho]
      refine ih _ x ?_
      rw [appliedIds_applyAppend]
      exact List.mem_append_left _ h

/-- After an import, every imported operation's id is applied. -/
theorem mem_appliedIds_importOps (ops : List Op) :
    ∀ (d : LoroDoc) (o : Op), o ∈ ops → o.id ∈ (d.importOps ops).appliedIds := by
  induction ops with
  | nil => intro d o h; cases h
  | cons o1 rest ih =>
    intro d o h
    rw [importOps_cons]
    rcases List.mem_cons.mp h with rfl | hmem
    · by_cases ho : o.id ∈ d.appliedIds
      · rw [if_pos ho]; exact mem_appliedIds_importOps_of_mem rest d o.id ho
      · rw [if_neg ho]
        refine mem_appliedIds_importOps_of_mem rest _ o.id ?_
        rw [appliedIds_applyAppend]
        exact List.mem_append_right _ (List.mem_singleton.mpr rfl)
    · by_cases ho : o1.id ∈ d.appliedIds
      · rw [if_pos ho]; exact ih d o hmem
      · rw [if_neg ho]; exact ih _ o hmem

/-- Importing a batch of already-known operations changes nothing
("replaying already-known operations is a no-op"). -/
theorem importOps_of_all_known (ops : List Op) :
    ∀ (d : LoroDoc), (∀ o ∈ ops, o.id ∈ d.appliedIds) → d.importOps ops = d := by
  induction ops with
  | nil => intro d _; rfl
  | cons o rest ih =>
    intro d h
    rw [importOps_cons, if_pos (h o (List.mem_cons_self o rest))]
    exact ih d (fun o1 h1 => h o1 (List.mem_cons_of_mem o h1))

/-- Import is idempotent on the document. -/
theorem importOps_importOps_self (d : LoroDoc) (ops : List Op) :
    (d.importOps ops).importOps ops = d.importOps ops :=
  importOps_of_all_known ops (d.importOps ops)
    (fun o h => mem_appliedIds_importOps ops d o h)

theorem strDeleteRange_full (s : String) : strDeleteRange s 0 s.length = "" := by
  unfold strDeleteRange
  rw [Nat.zero_add, show s.length = s.data.length from rfl, List.drop_length,
    List.take_zero, List.nil_append]
  rfl

theorem strInsertAt_empty (c : String) : strInsertAt "" 0 c = c := by
  unfold strInsertAt
  rw [show ("" : String).data = [] from rfl]
  rw [List.take_nil, List.drop_nil, List.nil_append, List.append_nil]
  cases c
  rfl

theorem string_eq_empty_of_length_zero (s : String) (h : s.length = 0) : s = "" := by
  cases s with
  | mk data =>
    cases data with
    | nil => rfl
    | cons a l => simp [String.length] at h

/-- A successful `setFile` binds the path to a text container holding
exactly the new content and registers the path. -/
theorem lookup_localOp_on_text (d : LoroDoc) (p s : String) (hlook : aLookup d.containers p = some (.text s)) (pos len : Nat) :
    aLookup (d.localOp (.textDelete p pos len)).containers p
      = some (.text (strDeleteRange s pos len)) := by
  simp only [LoroDoc.localOp, LoroDoc.applyAppend, applyAction, hlook]
  exact aLookup_aSet_self _ _ _ (by rw [hlook]; rfl)

theorem lookup_localOp_on_text_insert (d : LoroDoc) (p s : String) (hlook : aLookup d.containers p = some (.text s)) (pos : Nat) (t : String) :
    aLookup (d.localOp (.textInsert p pos t)).containers p
      = some (.text (strInsertAt s pos t)) := by
  simp only [LoroDoc.localOp, LoroDoc.applyAppend, applyAction, hlook]
  exact aLookup_aSet_self _ _ _ (by rw [hlook]; rfl)

theorem setFile_ok_lookup (st : LoroStore) (p c : String) (stOut : LoroStore) (sOut : List Send)
    (h : st.setFile p c = .ok (stOut, sOut)) :
    aLookup stOut.doc.containers p = some (.text c) ∧
      stOut.filePaths = insertPath st.filePaths p := by
  cases hg : st.doc.getText p with
  | error e => simp [LoroStore.setFile, hg] at h
  | ok pr =>
    obtain ⟨s, d⟩ := pr
    have hlook := getText_ok_lookup st.doc p s d hg
    by_cases hsc : s = c
    · simp only [LoroStore.setFile, hg, if_pos hsc] at h
      injection h with h1
      have h2 : _ = stOut := congrArg Prod.fst h1
      rw [← h2]
      subst hsc
      exact ⟨hlook, rfl⟩
    · simp only [LoroStore.setFile, hg, if_neg hsc] at h
      injection h with h1
      have h2 : _ = stOut := congrArg Prod.fst h1
      rw [← h2]
      refine ⟨?_, by rw [docEmit_fst_filePaths]⟩
      rw [docEmit_fst_doc]
      by_cases hs0 : s.length > 0
      · rw [if_pos hs0]
        have hdel := lookup_localOp_on_text d p s hlook 0 s.length
        rw [strDeleteRange_full] at hdel
        by_cases hc0 : c = ""
        · rw [if_pos hc0, hc0]
          exact hdel
        · rw [if_neg hc0]
          have hins := lookup_localOp_on_text_insert _ p "" hdel 0 c
          rw [strInsertAt_empty] at hins
          exact hins
      · rw [if_neg hs0]
        have hsempty : s = "" :=
          string_eq_empty_of_length_zero s (Nat.eq_zero_of_not_pos hs0)
        have hc0 : ¬ c = "" := fun hc => hsc (by rw [hsempty, hc])
        rw [if_neg hc0]
        have hins := lookup_localOp_on_text_insert d p s hlook 0 c
        rw [hsempty, strInsertAt_empty] at hins
        exact hins

/-- `deleteFile` touches only the "files" map container and the path
registry: a text container at the deleted path keeps its content. -/
theorem deleteFile_preserves_text (st : LoroStore) (p c : String)
    (h : aLookup st.doc.containers p = some (.text c)) :
    aLookup (st.deleteFile p).1.doc.containers p = some (.text c) ∧
      (st.deleteFile p).1.filePaths = st.filePaths.erase p := by
  unfold LoroStore.deleteFile
  cases hf : aLookup st.doc.containers "files" with
  | none => simp only [hf]; exact ⟨h, trivial⟩
  | some cont =>
    cases cont with
    | text s0 => simp only [hf]; exact ⟨h, trivial⟩
    | mapC keys =>
      by_cases hp : p ∈ keys
      · simp only [hf, if_pos hp, docEmit_fst_doc, docEmit_fst_filePaths]
        refine ⟨?_, trivial⟩
        have hne : p ≠ "files" := by
          intro he
          rw [he, hf] at h
          cases h
        simp only [LoroDoc.localOp, LoroDoc.applyAppend, applyAction, hf]
        rw [aLookup_aSet_other _ _ _ _ hne]
        exact h
      · simp only [hf, if_neg hp]
        exact ⟨h, trivial⟩

/-- Reading a file never changes the path registry. -/
theorem getFile_snd_filePaths (st : LoroStore) (p : String) :
    (st.getFile p).2.filePaths = st.filePaths := by
  unfold LoroStore.getFile
  cases hg : st.doc.getText p with
  | error e => rfl
  | ok pr =>
    obtain ⟨s, d⟩ := pr
    rfl

/-- The write loop of the remote-change pass never changes the Loro
path registry: it only reads from Loro and writes to OPFS. -/
theorem passLoop_loro_filePaths (paths : List String) :
    ∀ (loro : LoroStore) (o : Opfs) (fs : FilesStore),
      (passLoop loro o fs paths).loro.filePaths = loro.filePaths := by
  induction paths with
  | nil => intro loro o fs; rfl
  | cons p rest ih =>
    intro loro o fs
    simp only [passLoop]
    split
    · rw [ih]
      exact getFile_snd_filePaths loro p
    · split
      · exact getFile_snd_filePaths loro p
      · dsimp only
        rw [ih]
        exact getFile_snd_filePaths loro p

/-- `refresh` broadcasts something only when its bulk-push condition
held: this peer is host, the Loro registry is empty, and the local
directory list is non-empty. -/
theorem refresh_sends_ne_nil (fs : FilesStore) (o : Opfs) (loro : LoroStore)
    (h : (refresh fs o loro).sends ≠ []) :
    loro.isHost = true ∧ loro.listFiles.length = 0 ∧ o.listDirectory.length > 0 := by
  simp only [refresh] at h
  split at h
  · assumption
  · exact absurd rfl h

theorem mem_insertPath (l : List String) (p q : String) :
    q ∈ insertPath l p ↔ q ∈ l ∨ q = p := by
  unfold insertPath
  split
  · rename_i hp
    constructor
    · exact Or.inl
    · rintro (h | rfl)
      · exact h
      · exact hp
  · simp [List.mem_append]

theorem FileTree.length_eq_zero (t : FileTree) (h : t.length = 0) : t = .nil := by
  cases t with
  | nil => rfl
  | cons n rest => simp [FileTree.length] at h

mutual
/-- Pushing a node into Loro only grows the path registry, and a
successful push registers every file path of the node. -/
theorem syncNode_filePaths (n : FileNode) (o : Opfs) (loro : LoroStore) :
    (∀ q ∈ loro.filePaths, q ∈ (syncNodeToLoro o loro n).loro.filePaths) ∧
    ((syncNodeToLoro o loro n).ok = true →
      ∀ p ∈ nodeFilePaths n, p ∈ (syncNodeToLoro o loro n).loro.filePaths) := by
  cases n with
  | file p0 c0 =>
    unfold syncNodeToLoro
    split
    · exact ⟨fun q hq => hq, fun hok => by cases hok⟩
    · split
      · exact ⟨fun q hq => hq, fun hok => by cases hok⟩
      · rename_i loro1 s1 hw
        have hsup := (setFile_ok_lookup loro p0 _ loro1 s1 hw).2
        constructor
        · intro q hq
          dsimp only
          rw [hsup, mem_insertPath]
          exact Or.inl hq
        · intro _ p hp
          dsimp only
          rw [nodeFilePaths] at hp
          rw [hsup, mem_insertPath]
          exact Or.inr (List.mem_singleton.mp hp)
  | folder fp children =>
    exact syncTree_filePaths children o loro

/-- The tree-walk version of `syncNode_filePaths`. -/
theorem syncTree_filePaths (t : FileTree) (o : Opfs) (loro : LoroStore) :
    (∀ q ∈ loro.filePaths, q ∈ (syncTreeToLoro o loro t).loro.filePaths) ∧
    ((syncTreeToLoro o loro t).ok = true →
      ∀ p ∈ treeFilePaths t, p ∈ (syncTreeToLoro o loro t).loro.filePaths) := by
  cases t with
  | nil => exact ⟨fun q hq => hq, fun _ p hp => by cases hp⟩
  | cons n rest =>
    have hn := syncNode_filePaths n o loro
    simp only [syncTreeToLoro]
    by_cases h1 : (syncNodeToLoro o loro n).ok = true
    · have hrest := syncTree_filePaths rest o (syncNodeToLoro o loro n).loro
      rw [if_pos h1]
      constructor
      · intro q hq
        exact hrest.1 q (hn.1 q hq)
      · intro hok p hp
        rw [treeFilePaths, List.mem_append] at hp
        rcases hp with hp | hp
        · exact hrest.1 p (hn.2 h1 p hp)
        · exact hrest.2 hok p hp
    · rw [if_neg h1]
      exact ⟨hn.1, fun hok => absurd hok h1⟩
end

/-- A path bound to a map container reads as null and leaves the store
untouched (the case where `getText` throws inside `getFile`). -/
theorem getFile_mapC (st : LoroStore) (p : String) (m : List String)
    (h : aLookup st.doc.containers p = some (Container.mapC m)) :
    st.getFile p = (none, st) := by
  simp [LoroStore.getFile, LoroDoc.getText, h]

/-- Reading one path never disturbs the container bound to another
path (or the same one): existing bindings survive the lazy creation. -/
theorem getFile_snd_lookup (st : LoroStore) (q p : String) (c : Container)
    (h : aLookup st.doc.containers p = some c) :
    aLookup (st.getFile q).2.doc.containers p = some c := by
  unfold LoroStore.getFile
  cases hg : st.doc.getText q with
  | error e => exact h
  | ok pr =>
    obtain ⟨s, d⟩ := pr
    unfold LoroDoc.getText at hg
    cases hl : aLookup st.doc.containers q with
    | none =>
      rw [hl] at hg
      injection hg with hg1
      injection hg1 with h1 h2
      rw [← h2]
      dsimp only
      rw [aLookup_append, h]
    | some cq =>
      cases cq with
      | text s0 =>
        rw [hl] at hg
        injection hg with hg1
        injection hg1 with h1 h2
        rw [← h2]
        exact h
      | mapC m0 => rw [hl] at hg; cases hg

/-- A successful OPFS write never changes the write-fault oracle. -/
theorem writeFile_ok_writeFails (o : Opfs) (q content : String) (o1 : Opfs)
    (h : o.writeFile q content = .ok o1) : o1.writeFails = o.writeFails := by
  unfold Opfs.writeFile at h
  split at h
  · cases h
  · split at h
    · injection h with h1
      rw [← h1]
    · injection h with h1
      rw [← h1]

/-- The finally-equivalent of the bridge pass: the bridge reentrancy
flag is cleared on every exit path of the remote-change callback. -/
theorem remoteChangePass_clears_flag (fs : FilesStore) (loro : LoroStore) (o : Opfs) :
    (remoteChangePass fs loro o).fs.isApplyingRemote = false := by
  simp only [remoteChangePass]
  split <;> rfl

/-- A path whose Loro read yields null (a non-text container) is
skipped by the write loop without affecting the rest of the pass. -/
theorem passLoop_skip_mapC (l1 : List String) :
    ∀ (l2 : List String) (p : String) (loro : LoroStore) (o : Opfs) (fs : FilesStore)
      (m : List String),
      aLookup loro.doc.containers p = some (Container.mapC m) →
      passLoop loro o fs (l1 ++ p :: l2) = passLoop loro o fs (l1 ++ l2) := by
  induction l1 with
  | nil =>
    intro l2 p loro o fs m h
    simp only [List.nil_append, passLoop, getFile_mapC loro p m h]
  | cons q rest ih =>
    intro l2 p loro o fs m h
    simp only [List.cons_append, passLoop]
    split
    · exact ih l2 p _ o fs m (getFile_snd_lookup loro q p _ h)
    · split
      · rfl
      · rw [show rest.append (p :: l2) = rest ++ p :: l2 from rfl,
          show rest.append l2 = rest ++ l2 from rfl,
          ih l2 p _ _ _ m (getFile_snd_lookup loro q p _ h)]

/-- A failing OPFS write at path `p` aborts the write loop: nothing
after the prefix is written, the loop reports the abort, and the
persistent store is exactly what the prefix produced. -/
theorem passLoop_write_fail_aborts (l1 : List String) :
    ∀ (l2 : List String) (p c : String) (loro : LoroStore) (o : Opfs) (fs : FilesStore),
      (passLoop loro o fs l1).ok = true →
      ((passLoop loro o fs l1).loro.getFile p).1 = some c →
      p ∈ o.writeFails →
      (passLoop loro o fs (l1 ++ p :: l2)).written = (passLoop loro o fs l1).written ∧
      (passLoop loro o fs (l1 ++ p :: l2)).ok = false ∧
      (passLoop loro o fs (l1 ++ p :: l2)).opfs = (passLoop loro o fs l1).opfs := by
  induction l1 with
  | nil =>
    intro l2 p c loro o fs hok hread hfail
    simp only [passLoop] at hread
    simp only [List.nil_append, passLoop, hread, Opfs.writeFile]
    rw [if_pos hfail]
    exact ⟨rfl, rfl, rfl⟩
  | cons q rest ih =>
    intro l2 p c loro o fs hok hread hfail
    cases hgq : (loro.getFile q).1 with
    | none =>
      simp only [passLoop, List.cons_append, hgq] at hok hread ⊢
      exact ih l2 p c _ o fs hok hread hfail
    | some content =>
      cases hw : o.writeFile q content with
      | error e =>
        simp only [passLoop, List.cons_append, hgq, hw] at hok
        cases hok
      | ok o1 =>
        simp only [passLoop, List.cons_append, List.append_eq, hgq, hw] at hok hread ⊢
        have hfail1 : p ∈ o1.writeFails := by
          rw [writeFile_ok_writeFails o q content o1 hw]
          exact hfail
        have hres := ih l2 p c _ o1 _ hok hread hfail1
        exact ⟨by rw [hres.1], hres.2.1, hres.2.2⟩

theorem insertPath_nodup (l : List String) (p : String) (h : l.Nodup) :
    (insertPath l p).Nodup := by
  unfold insertPath
  split
  · exact h
  · rename_i hnm
    rw [List.nodup_append]
    exact ⟨h, List.nodup_singleton p, fun a ha hb => hnm (by rwa [List.mem_singleton.mp hb] at ha)⟩

end Lemmas

section Fixtures

/-- A concrete remote operation used by concrete instances. -/
def opHello : Op :=
  { id := { peer := 7, counter := 0 }, action := OpAction.textInsert "notes.md" 0 "hello" }

/-- A host store with two open client connections. -/
def hostWithTwoClients : LoroStore :=
  { LoroStore.init 1 with isHost := true, connections := ["client-b", "client-c"] }

/-- A store that already holds the file "a.md" with content "A". -/
def loroWithA : LoroStore :=
  match (LoroStore.init 1).setFile "a.md" "A" with
  | .ok r => r.1
  | .error _ => LoroStore.init 1

/-- A files store in its initial state. -/
def fsEmpty : FilesStore :=
  { files := .nil, currentFile := none, lastSavedContent := "", isApplyingRemote := false }

/-- `loroWithA` in the host role (as right after a successful claim). -/
def hostLoroWithA : LoroStore :=
  { loroWithA with isHost := true }

/-- An OPFS holding one local file "b.md" with content "B". -/
def opfsB : Opfs :=
  { tree := .cons (.file "b.md" "B") .nil, writeFails := [], readFails := [] }

/-- An OPFS with an empty directory tree. -/
def opfsEmptyTree : Opfs :=
  { tree := .nil, writeFails := [], readFails := [] }

/-- A store holding "a.md" with content "A" and "b.md" with "B". -/
def loroAB : LoroStore :=
  match loroWithA.setFile "b.md" "B" with
  | .ok r => r.1
  | .error _ => loroWithA

/-- An OPFS with stale copies of both files whose write to "a.md"
fails. -/
def opfsFailA : Opfs :=
  { tree := .cons (.file "a.md" "") (.cons (.file "b.md" "") .nil),
    writeFails := ["a.md"], readFails := [] }

/-- A store caught mid-inbound-apply: the reentrancy flag is set. -/
def stFlagSet : LoroStore :=
  { LoroStore.init 3 with applyingRemote := true }

/-- A host with one client connection and an empty Loro registry. -/
def loroHostEmpty : LoroStore :=
  { LoroStore.init 2 with isHost := true, connections := ["client-x"] }

/-- An OPFS holding one local file, with no fault injected. -/
def opfsOneFile : Opfs :=
  { tree := .cons (.file "seed.md" "hello") .nil, writeFails := [], readFails := [] }

end Fixtures

section Claims

/-- C1: loop suppression.  First conjunct: while the reentrancy flag is
set, the `doc.subscribe` handler is a complete no-op — no export, no
state change, no broadcast.  Second conjunct: an inbound
remote-change pass never broadcasts an update caused by its own
persistent-store writes: whenever the pass broadcast anything at all
(possible only through the bulk-push branch of the final `refresh`,
which requires an empty Loro registry), the pass had written nothing to
the persistent store. -/
theorem claim_c1_loop_suppression :
    (∀ st : LoroStore, st.applyingRemote = true → st.docEmit = (st, [])) ∧
    (∀ (fs : FilesStore) (loro : LoroStore) (o : Opfs),
      (remoteChangePass fs loro o).sends ≠ [] → (remoteChangePass fs loro o).written = []) := by
  constructor
  · exact docEmit_of_applyingRemote
  · intro fs loro o hs
    simp only [remoteChangePass] at hs ⊢
    by_cases hok :
        (passLoop loro o { fs with isApplyingRemote := true } loro.listFiles).ok = true
    · rw [if_pos hok] at hs ⊢
      dsimp only at hs ⊢
      have hcond := refresh_sends_ne_nil _ _ _ hs
      have hlen := hcond.2.1
      rw [LoroStore.listFiles, passLoop_loro_filePaths] at hlen
      have hnil : loro.listFiles = [] := by
        rw [LoroStore.listFiles]
        exact List.length_eq_zero.mp hlen
      rw [hnil]
      rfl
    · rw [if_neg hok] at hs
      exact absurd rfl hs

/-- C1 witness: a flag-set store emits nothing, and a concrete pass on
a host with an empty registry (which does broadcast a bulk-push update)
wrote nothing to the persistent store. -/
theorem claim_c1_witness :
    stFlagSet.docEmit = (stFlagSet, []) ∧
      (remoteChangePass fsEmpty loroHostEmpty opfsOneFile).written = [] :=
  ⟨claim_c1_loop_suppression.1 stFlagSet rfl,
   claim_c1_loop_suppression.2 fsEmpty loroHostEmpty opfsOneFile (by decide)⟩

/-- C2: the claim states that `applyingRemote` is false after every
`handleMessage` call on a sync or update payload, including when
the import throws.  The code sets the flag, imports, and clears the flag
only on the success path; the catch block has no finally, so a
malformed payload leaves the flag set.  This theorem evaluates the code
at the failing input: after handling an update whose bytes make
`doc.import` throw, the reentrancy flag is still set — wedging all
further outbound sync, exactly what the spec says must not happen. -/
theorem claim_c2_flag_wedged_on_malformed_update :
    ((LoroStore.init 1).handleMessage (Msg.update Payload.bad) "peer-b").store.applyingRemote
      = true := by decide

/-- C3: applying the same serialized update payload twice leaves the
document in the same state as applying it once — replaying
already-known operations is a no-op of the version-vector-guarded
merge. -/
theorem claim_c3_idempotent_update_application (st : LoroStore) (u : List Op) (sender : String) :
    ((st.handleMessage (Msg.update (Payload.ok u)) sender).store.handleMessage
        (Msg.update (Payload.ok u)) sender).store.doc
      = (st.handleMessage (Msg.update (Payload.ok u)) sender).store.doc := by
  have hdoc : ∀ s : LoroStore,
      (s.handleMessage (Msg.update (Payload.ok u)) sender).store.doc = s.doc.importOps u := by
    intro s
    simp [LoroStore.handleMessage, LoroDoc.importBytes, docEmit_fst_doc]
  rw [hdoc, hdoc, importOps_importOps_self]

/-- C4: writing content equal to the current content is a no-op — the
write succeeds, the op-log (and hence the op-log version) is unchanged,
and the local-change subscription broadcasts nothing for the call. -/
theorem claim_c4_noop_on_unchanged_write (st : LoroStore) (p c : String)
    (h : (st.getFile p).1 = some c) :
    (st.setFile p c).toOption.map
        (fun r : LoroStore × List Send => (r.1.doc.oplog, r.1.doc.appliedIds, r.2))
      = some (st.doc.oplog, st.doc.appliedIds, ([] : List Send)) := by
  unfold LoroStore.getFile at h
  cases hg : st.doc.getText p with
  | error e => rw [hg] at h; cases h
  | ok pr =>
    obtain ⟨s, d⟩ := pr
    rw [hg] at h
    simp only [Option.some.injEq] at h
    subst h
    have hinv := getText_ok_inv st.doc p s d hg
    unfold LoroStore.setFile
    rw [hg]
    simp [Except.toOption, LoroDoc.appliedIds, hinv.1]

/-- C4 witness: in a store holding "a.md" with content "A", rewriting
"A" succeeds, changes no op-log entry and sends nothing. -/
theorem claim_c4_witness :
    (loroWithA.setFile "a.md" "A").toOption.map
        (fun r : LoroStore × List Send => (r.1.doc.oplog, r.1.doc.appliedIds, r.2))
      = some (loroWithA.doc.oplog, loroWithA.doc.appliedIds, ([] : List Send)) :=
  claim_c4_noop_on_unchanged_write loroWithA "a.md" "A" (by decide)

/-- C5 counterexample: the claim states a received snapshot ("sync")
message is never relayed.  On a host with two clients, handling a
snapshot arriving from one client sends that very snapshot message to
the other client: `handleMessage` relays sync and update payloads
through the same host-relay branch. -/
theorem claim_c5_counterexample :
    ("client-c", Msg.sync (Payload.ok [opHello])) ∈
      (hostWithTwoClients.handleMessage (Msg.sync (Payload.ok [opHello])) "client-b").sends := by
  decide

/-- C5 amended: a received snapshot message is applied and then relayed
exactly like an update: the host forwards it to every other open
connection except the sender, and a non-host peer forwards it to
nobody. -/
theorem claim_c5_snapshot_relayed_like_update (st : LoroStore) (u : List Op)
    (sender peer : String) :
    ((peer, Msg.sync (Payload.ok u)) ∈ (st.handleMessage (Msg.sync (Payload.ok u)) sender).sends)
      ↔ st.isHost = true ∧ peer ∈ st.connections ∧ peer ≠ sender := by
  simp only [LoroStore.handleMessage, LoroDoc.importBytes]
  rw [docEmit_of_applyingRemote _ (by simp)]
  by_cases hHost : st.isHost = true
  · rw [if_pos hHost]
    simp only [List.nil_append, LoroStore.broadcastMsg, List.mem_map, List.mem_filter,
      decide_eq_true_eq, Prod.mk.injEq]
    constructor
    · rintro ⟨c, ⟨hc, hne⟩, rfl, -⟩
      exact ⟨hHost, hc, fun he => hne (congrArg some he)⟩
    · rintro ⟨-, hc, hne⟩
      exact ⟨peer, ⟨hc, fun he => hne (Option.some.inj he)⟩, rfl, trivial⟩
  · rw [if_neg hHost]
    simp only [List.nil_append, List.not_mem_nil, false_iff]
    rintro ⟨h1, -⟩
    exact hHost h1

/-- C6: a `joinRoom` whose host claim fails with the unavailable-id
error deterministically falls back to client mode: the peer is not
host, runs under the fresh broker-assigned address, and opens an
outbound connection to the room id as the host's address. -/
theorem claim_c6_claim_conflict_fallback (st : LoroStore) (rid freshId : String) :
    (st.joinRoom (some rid) ClaimOutcome.unavailableId freshId).isHost = false ∧
    (st.joinRoom (some rid) ClaimOutcome.unavailableId freshId).peerId = some freshId ∧
    rid ∈ (st.joinRoom (some rid) ClaimOutcome.unavailableId freshId).connectAttempts := by
  refine ⟨?_, ?_, ?_⟩ <;>
    simp [LoroStore.joinRoom, LoroStore.peerOpen, LoroStore.connectToPeer]

/-- C7 counterexample: the claim states the bulk local-to-shared push
on a host transition happens only when the replicated document is
empty.  Concretely: a host whose Loro store already holds "a.md" (a
non-empty registry and op-log) still pushes the local file "b.md" into
Loro when the host callback runs — the callback checks only that the
local list is non-empty, never the shared document. -/
theorem claim_c7_counterexample :
    hostLoroWithA.listFiles ≠ [] ∧ hostLoroWithA.doc.oplog ≠ [] ∧
      "b.md" ∈ (hostCallback fsEmpty opfsB hostLoroWithA).loro.listFiles := by decide

/-- C7 amended: the host-transition callback bulk-pushes whenever the
local directory list is non-empty, regardless of the shared document's
contents (the push registers every local file path, for every prior
Loro state); with an empty local list nothing is pushed.  The
emptiness-guarded push (host, empty Loro registry, non-empty local
list) lives on the separate `refresh()` path, which leaves Loro
untouched whenever its guard fails. -/
theorem claim_c7_host_bootstrap_unguarded (fs : FilesStore) (o : Opfs) (loro : LoroStore) :
    (o.listDirectory.length = 0 →
      (hostCallback fs o loro).loro = loro ∧ (hostCallback fs o loro).sends = []) ∧
    ((hostCallback fs o loro).ok = true →
      ∀ p ∈ treeFilePaths o.listDirectory, p ∈ (hostCallback fs o loro).loro.listFiles) ∧
    (¬(loro.isHost = true ∧ loro.listFiles.length = 0 ∧ o.listDirectory.length > 0) →
      (refresh fs o loro).loro = loro ∧ (refresh fs o loro).sends = []) := by
  refine ⟨?_, ?_, ?_⟩
  · intro hlen
    have hnil := FileTree.length_eq_zero _ hlen
    simp only [hostCallback, Opfs.listDirectory] at hnil ⊢
    rw [hnil]
    exact ⟨rfl, rfl⟩
  · intro hok p hp
    simp only [hostCallback] at hok ⊢
    by_cases hlen : o.listDirectory.length > 0
    · rw [if_pos hlen] at hok ⊢
      dsimp only at hok ⊢
      exact (syncTree_filePaths o.listDirectory o loro).2 hok p hp
    · have hnil := FileTree.length_eq_zero o.listDirectory (Nat.eq_zero_of_not_pos hlen)
      rw [hnil] at hp
      cases hp
  · intro hcond
    simp only [refresh]
    rw [if_neg hcond]
    exact ⟨rfl, rfl⟩

/-- C7 witness: an empty local tree pushes nothing; the concrete
unguarded push of the counterexample registers "b.md"; and `refresh`
on the same non-empty-registry host leaves Loro untouched. -/
theorem claim_c7_witness :
    (hostCallback fsEmpty opfsEmptyTree hostLoroWithA).loro = hostLoroWithA ∧
      "b.md" ∈ (hostCallback fsEmpty opfsB hostLoroWithA).loro.listFiles ∧
      (refresh fsEmpty opfsB hostLoroWithA).loro = hostLoroWithA :=
  ⟨((claim_c7_host_bootstrap_unguarded fsEmpty opfsEmptyTree hostLoroWithA).1 (by decide)).1,
   (claim_c7_host_bootstrap_unguarded fsEmpty opfsB hostLoroWithA).2.1 (by decide) "b.md"
     (by decide),
   ((claim_c7_host_bootstrap_unguarded fsEmpty opfsB hostLoroWithA).2.2 (by decide)).1⟩

/-- C8 counterexample: the claim states a persistent-store write
failure for one path does not abort reconciliation of the remaining
paths.  Concretely: with Loro holding "a.md" = "A" and "b.md" = "B" and
an OPFS whose write to "a.md" throws, the pass writes nothing at all —
"b.md" still holds its stale empty content afterwards even though its
Loro content differs — because the single try/catch wraps the whole
loop. -/
theorem claim_c8_counterexample :
    (loroAB.getFile "b.md").1 = some "B" ∧
      (remoteChangePass fsEmpty loroAB opfsFailA).written = [] ∧
      findFileTree (remoteChangePass fsEmpty loroAB opfsFailA).opfs.tree "b.md" = some "" := by
  decide

/-- C8 amended: error containment in the inbound pass is asymmetric.
The reentrancy flag is always cleared (finally); a path whose Loro read
yields null is skipped with the rest of the pass unaffected; but an
OPFS write failure aborts the remainder of the loop — no later path is
written, the pass reports the abort (skipping the refresh), and the
persistent store stays as the prefix left it. -/
theorem claim_c8_per_file_containment :
    (∀ (fs : FilesStore) (loro : LoroStore) (o : Opfs),
      (remoteChangePass fs loro o).fs.isApplyingRemote = false) ∧
    (∀ (l1 l2 : List String) (p : String) (loro : LoroStore) (o : Opfs) (fs : FilesStore)
      (m : List String),
      aLookup loro.doc.containers p = some (Container.mapC m) →
      passLoop loro o fs (l1 ++ p :: l2) = passLoop loro o fs (l1 ++ l2)) ∧
    (∀ (l1 l2 : List String) (p c : String) (loro : LoroStore) (o : Opfs) (fs : FilesStore),
      (passLoop loro o fs l1).ok = true →
      ((passLoop loro o fs l1).loro.getFile p).1 = some c →
      p ∈ o.writeFails →
      (passLoop loro o fs (l1 ++ p :: l2)).written = (passLoop loro o fs l1).written ∧
      (passLoop loro o fs (l1 ++ p :: l2)).ok = false ∧
      (passLoop loro o fs (l1 ++ p :: l2)).opfs = (passLoop loro o fs l1).opfs) :=
  ⟨remoteChangePass_clears_flag,
   fun l1 l2 p loro o fs m h => passLoop_skip_mapC l1 l2 p loro o fs m h,
   fun l1 l2 p c loro o fs hok hread hfail =>
     passLoop_write_fail_aborts l1 l2 p c loro o fs hok hread hfail⟩

/-- C8 witness: on the counterexample inputs, the flag ends cleared; a
null-reading path ("files", the map container) is skipped exactly; and
the failing write to "a.md" as the first path of the loop leaves the
written list and the store exactly as before it. -/
theorem claim_c8_witness :
    (remoteChangePass fsEmpty loroAB opfsFailA).fs.isApplyingRemote = false ∧
      passLoop loroAB opfsFailA fsEmpty ["files"] = passLoop loroAB opfsFailA fsEmpty [] ∧
      (passLoop loroAB opfsFailA fsEmpty (["a.md", "b.md"])).written
        = (passLoop loroAB opfsFailA fsEmpty []).written :=
  ⟨claim_c8_per_file_containment.1 fsEmpty loroAB opfsFailA,
   claim_c8_per_file_containment.2.1 [] [] "files" loroAB opfsFailA fsEmpty [] (by decide),
   (claim_c8_per_file_containment.2.2 [] ["b.md"] "a.md" "A" loroAB opfsFailA fsEmpty rfl
     (by decide) (by decide)).1⟩

/-- C9 counterexample: the claim states that reading a path never
created by the write path yields an absent signal.  On a fresh store,
`getFile` of a never-created path returns the empty string — content,
not the null the claim expects — because `doc.getText` lazily creates
an empty container. -/
theorem claim_c9_counterexample :
    ((LoroStore.init 1).getFile "never-created.md").1 = some "" ∧
      ((LoroStore.init 1).getFile "never-created.md").1 ≠ none := by decide

/-- C9 amended: reading never throws to the caller, but a path with no
container yields empty content (`some ""`), not an absent signal;
`getFile` returns null only when the path is occupied by a non-text
container (such as the root map "files"), the case where `getText`
throws and the internal catch fires. -/
theorem claim_c9_getFile_soft_semantics (st : LoroStore) (p : String) :
    (aLookup st.doc.containers p = none → (st.getFile p).1 = some "") ∧
    (∀ m, aLookup st.doc.containers p = some (Container.mapC m) → (st.getFile p).1 = none) := by
  constructor
  · intro h
    simp [LoroStore.getFile, LoroDoc.getText, h]
  · intro m h
    simp [LoroStore.getFile, LoroDoc.getText, h]

/-- C9 witness: on a fresh store, a never-created path reads as empty
content and the map-container path "files" reads as null. -/
theorem claim_c9_witness :
    ((LoroStore.init 1).getFile "draft.md").1 = some "" ∧
      ((LoroStore.init 1).getFile "files").1 = none :=
  ⟨(claim_c9_getFile_soft_semantics (LoroStore.init 1) "draft.md").1 (by decide),
   (claim_c9_getFile_soft_semantics (LoroStore.init 1) "files").2 [] (by decide)⟩

/-- C10: after `setFile(p, c)`, calling `deleteFile(p)` removes `p`
from `listFiles()` yet `getFile(p)` still returns `c`: `deleteFile`
deletes a key of the "files" map container (which the write path never
populates) while `setFile` and `getFile` operate on root text
containers keyed by the path itself.  The registry is a set, hence the
no-duplicates hypothesis. -/
theorem claim_c10_delete_leaves_text_intact (st : LoroStore) (p c : String)
    (stOut : LoroStore) (sOut : List Send) (hnd : st.filePaths.Nodup)
    (hset : st.setFile p c = .ok (stOut, sOut)) :
    p ∉ (stOut.deleteFile p).1.listFiles ∧
      ((stOut.deleteFile p).1.getFile p).1 = some c := by
  obtain ⟨hlook, hpaths⟩ := setFile_ok_lookup st p c stOut sOut hset
  obtain ⟨hlook2, hpaths2⟩ := deleteFile_preserves_text stOut p c hlook
  constructor
  · rw [LoroStore.listFiles, hpaths2, hpaths]
    intro hmem
    have hnd1 : (insertPath st.filePaths p).Nodup := insertPath_nodup _ _ hnd
    exact ((List.Nodup.mem_erase_iff hnd1).mp hmem).1 rfl
  · simp [LoroStore.getFile, LoroDoc.getText, hlook2]

/-- C10 witness: with "a.md" set to "A" on a fresh store, deleting
"a.md" removes it from the listing while its text still reads "A". -/
theorem claim_c10_witness :
    "a.md" ∉ (loroWithA.deleteFile "a.md").1.listFiles ∧
      ((loroWithA.deleteFile "a.md").1.getFile "a.md").1 = some "A" :=
  claim_c10_delete_leaves_text_intact (LoroStore.init 1) "a.md" "A" loroWithA []
    (by decide) (by decide)

end Claims

end MdToPdf
